import Mathlib

/-!
Verification of the fish-audio streaming client core.

The development shallowly embeds the two audio-stream implementations of
the repository and the duplex WebSocket engine around them:

* `WSStream`, `WSNext`, `WSRead`, `WSCollect`, `WSClose` embed
  `WebSocketAudioStream` and its methods (`Next`, `Read`, `Collect`,
  `Close`).
* `recvLoopAux` / `recvPath` embed the receive goroutine of
  `StreamWebSocket`; `sendLoopAux` / `sendPath` embed the send goroutine;
  `startSetup` embeds the synchronous start-event marshal/write step.
* `HTTPStream`, `HTTPNext`, `HTTPRead`, `HTTPCollect`, `HTTPClose` embed
  `AudioStream` over an HTTP response body, the body being modelled as the
  sequence of results its successive `Read` calls produce.

Concurrency is sequentialized: the receive goroutine is run to completion
and the caller-facing stream is built from the final contents of the two
channels (`streamAfter`).  Go's `select` between the audio channel and
the error channel chooses uniformly at random when several cases are
ready; the model threads that choice through explicitly (one `Bool` per
select, `true` = the audio-channel case, with `Collect` taking a whole
schedule `Nat → Bool`), and a select with no ready case blocks, which
the model reports as `none`.
-/

/-- Audio bytes are opaque data here; a Go `byte` is modelled as `Nat`. -/
abbrev Byte := Nat

/-- Errors that the duplex engine can publish to its single-slot error
channel or return synchronously.  Each constructor corresponds to one
`fmt.Errorf`/`&WebSocketError{...}` site in `StreamWebSocket`. -/
inductive WSErr
  | readFailed (m : String)
  | decodeFailed
  | marshalTextFailed
  | sendTextFailed
  | marshalStartFailed
  | sendStartFailed
  | finishedWithError
deriving DecidableEq, Repr

/-- The user-visible message of an error (`WebSocketError.Error()` returns
`e.Message`; the wrapped `fmt.Errorf` messages are kept as their format
strings). -/
def WSErr.message : WSErr → String
  | .readFailed m => m
  | .decodeFailed => "failed to decode response"
  | .marshalTextFailed => "failed to marshal text event"
  | .sendTextFailed => "failed to send text"
  | .marshalStartFailed => "failed to marshal start event"
  | .sendStartFailed => "failed to send start event"
  | .finishedWithError => "stream finished with error"

/-- A decoded inbound frame: the `wsResponse` struct
(`event`, `audio`, `reason` msgpack fields). -/
structure WSResponse where
  event : String
  audio : List Byte
  reason : String
deriving DecidableEq, Repr

/-- The result of one `conn.ReadMessage()` + msgpack decode step as the
receive goroutine sees it: a message that decodes to a `wsResponse`
(`okMsg (some r)`), a message that fails `msgpack.Unmarshal`
(`okMsg none`), a close error with code `CloseNormalClosure` or
`CloseNoStatusReceived` (`closeNormal`), or any other read error. -/
inductive ReadResult
  | okMsg (r : Option WSResponse)
  | closeNormal
  | readFail (m : String)
deriving DecidableEq, Repr

/-- Observable actions of the two goroutines of `StreamWebSocket`:
sends on the audio channel, non-blocking publishes on the error channel,
writes of text/stop events, and the receive goroutine's deferred
cleanup steps. -/
inductive Act
  | deliverChunk (c : List Byte)
  | publishErr (e : WSErr)
  | writeText (t : String)
  | writeStop
  | closeDoneChan
  | closeConn
  | closeAudioChan
deriving DecidableEq, Repr

/-- Body of the receive goroutine's `for` loop, run over the sequence of
read results the connection yields.  Returns the actions performed and
whether the goroutine returned (`true`) or is still blocked reading
(`false`, when the list is exhausted with no terminal step).

Mirrors the source: a non-expected read error or a decode failure is
published and ends the loop; an `audio` event delivers its payload only
when non-empty and the loop continues; a `finish` event publishes an
error only for reason `"error"` and always ends the loop; any other
decoded event falls through the `switch` (which has no default case) and
the loop continues. -/
def recvLoopAux : List ReadResult → List Act × Bool
  | [] => ([], false)
  | .closeNormal :: _ => ([], true)
  | .readFail m :: _ => ([.publishErr (.readFailed m)], true)
  | .okMsg none :: _ => ([.publishErr .decodeFailed], true)
  | .okMsg (some r) :: rest =>
    if r.event = "audio" then
      let t := recvLoopAux rest
      if r.audio = [] then t else (.deliverChunk r.audio :: t.1, t.2)
    else if r.event = "finish" then
      (if r.reason = "error" then [.publishErr .finishedWithError] else [], true)
    else
      recvLoopAux rest

/-- The receive goroutine including its deferred cleanup, which runs in
LIFO order of the `defer` statements: `close(doneChan)`, `conn.Close()`,
`close(audioChan)`. -/
def recvPath (rs : List ReadResult) : List Act :=
  let t := recvLoopAux rs
  t.1 ++ (if t.2 then [.closeDoneChan, .closeConn, .closeAudioChan] else [])

/-- Chunks sent on the audio channel, in order. -/
def deliveredChunks (as : List Act) : List (List Byte) :=
  as.filterMap fun a => match a with
    | .deliverChunk c => some c
    | _ => none

/-- Errors published (attempted non-blocking sends on the error channel),
in order. -/
def publishedErrs (as : List Act) : List WSErr :=
  as.filterMap fun a => match a with
    | .publishErr e => some e
    | _ => none

/-- The first error published to the error channel, if any. -/
def firstErr (as : List Act) : Option WSErr :=
  (publishedErrs as).head?

/-- One non-blocking send on the single-slot error channel
(`select { case errChan <- err: default: }` against
`errChan := make(chan error, 1)`): if the slot is occupied the value is
discarded. -/
def slotPublish (slot : Option WSErr) (e : WSErr) : Option WSErr :=
  match slot with
  | some x => some x
  | none => some e

/-- Contents of the single-slot error channel after a sequence of
non-blocking publishes. -/
def slotAfter (es : List WSErr) : Option WSErr :=
  es.foldl slotPublish none

/-- State of a `WebSocketAudioStream` together with the contents of the
two channels feeding it.  `audioQueue` is the buffered audio channel,
`audioClosed` whether that channel has been closed (the receive goroutine
returned), `errSlot` the error channel's slot; `buf`, `err`, `closed` are
the struct's own fields. -/
structure WSStream where
  audioQueue : List (List Byte)
  errSlot : Option WSErr
  audioClosed : Bool
  buf : List Byte
  err : Option WSErr
  closed : Bool
deriving DecidableEq, Repr

/-- What one `select { case chunk, ok := <-audioChan: ... case err := <-errChan: ... }`
observes. -/
inductive Pulled
  | chunk (c : List Byte)
  | errSlotVal (e : WSErr)
  | chanClosed
deriving DecidableEq, Repr

/-- One execution of the consumer's `select` over the two channels.  The
audio-channel case is ready when a chunk is buffered or the channel has
been closed (Go drains a closed buffered channel before reporting
`ok = false`); the error case is ready when the slot is occupied.  When
both are ready, Go chooses uniformly at random: `pick` is that choice
(`true` = take the audio-channel case).  When neither is ready the
`select` blocks, which the model reports as `none`. -/
def WSPull (pick : Bool) (s : WSStream) : Option (Pulled × WSStream) :=
  match s.audioQueue, s.errSlot with
  | c :: rest, some e =>
    if pick then some (.chunk c, { s with audioQueue := rest })
    else some (.errSlotVal e, { s with errSlot := none })
  | c :: rest, none => some (.chunk c, { s with audioQueue := rest })
  | [], some e =>
    if s.audioClosed then
      (if pick then some (.chanClosed, s)
       else some (.errSlotVal e, { s with errSlot := none }))
    else some (.errSlotVal e, { s with errSlot := none })
  | [], none =>
    if s.audioClosed then some (.chanClosed, s) else none

/-- `WebSocketAudioStream.Next` under select choice `pick`: returns false
at once when closed or errored, otherwise selects on the two channels; a
pulled chunk becomes the current buffer, a pulled error is recorded, the
closed-channel signal sets the closed flag.  `none` means the call
blocks. -/
def WSNext (pick : Bool) (s : WSStream) : Option (Bool × WSStream) :=
  if s.closed || s.err.isSome then some (false, s)
  else
    match WSPull pick s with
    | none => none
    | some (.chunk c, s') => some (true, { s' with buf := c })
    | some (.errSlotVal e, s') => some (false, { s' with err := some e })
    | some (.chanClosed, s') => some (false, { s' with closed := true })

/-- The `for s.Next() { buf.Write(s.Bytes()) }` loop of
`WebSocketAudioStream.Collect`, threading one select choice `σ n` per
iteration; `none` when some iteration blocks (or the fuel runs out,
which the bound passed by `WSCollect` prevents). -/
def WSCollectAux (σ : Nat → Bool) : Nat → WSStream → Option (List Byte × WSStream)
  | 0, _ => none
  | n + 1, s =>
    match WSNext (σ n) s with
    | none => none
    | some (true, s') =>
      match WSCollectAux σ n s' with
      | none => none
      | some t => some (s'.buf ++ t.1, t.2)
    | some (false, s') => some ([], s')

/-- `WebSocketAudioStream.Collect` under select schedule `σ`: drain via
`Next`, then return the error and no bytes if one was recorded, else the
concatenated bytes; `none` when the drain would block.  One `Next` per
queued chunk plus a terminal one bounds the loop. -/
def WSCollect (σ : Nat → Bool) (s : WSStream) :
    Option (Option (List Byte) × Option WSErr) :=
  match WSCollectAux σ (s.audioQueue.length + 1) s with
  | none => none
  | some t => some (if t.2.err.isSome then none else some t.1, t.2.err)

/-- `WebSocketAudioStream.Close`: sets the closed flag and returns nil. -/
def WSClose (s : WSStream) : WSStream :=
  { s with closed := true }

/-- The caller-facing stream after the receive goroutine has processed
the whole read sequence: the channels hold what the goroutine put there,
and the audio channel is closed iff the goroutine returned. -/
def streamAfter (rs : List ReadResult) : WSStream :=
  { audioQueue := deliveredChunks (recvPath rs)
  , errSlot := firstErr (recvPath rs)
  , audioClosed := (recvLoopAux rs).2
  , buf := []
  , err := none
  , closed := false }

/-- Shorthand for the inbound frame kinds the claims use. -/
def audioFrame (p : List Byte) : ReadResult :=
  .okMsg (some { event := "audio", audio := p, reason := "" })

/-- A `finish` frame with the given reason. -/
def finishFrame (reason : String) : ReadResult :=
  .okMsg (some { event := "finish", audio := [], reason := reason })

/- ### Helper lemmas -/

theorem recvLoopAux_audio_stop (ps : List (List Byte)) (h : ∀ p ∈ ps, p ≠ []) :
    recvLoopAux (ps.map audioFrame ++ [finishFrame "stop"])
      = (ps.map Act.deliverChunk, true) := by
  induction ps with
  | nil => rfl
  | cons p ps ih =>
    have hp : p ≠ [] := h p (by simp)
    have ih' := ih (fun q hq => h q (by simp [hq]))
    have h1 : recvLoopAux ((p :: ps).map audioFrame ++ [finishFrame "stop"])
        = (if p = [] then recvLoopAux (ps.map audioFrame ++ [finishFrame "stop"])
           else (Act.deliverChunk p :: (recvLoopAux (ps.map audioFrame ++ [finishFrame "stop"])).1,
                 (recvLoopAux (ps.map audioFrame ++ [finishFrame "stop"])).2)) := rfl
    rw [h1, if_neg hp, ih']
    rfl

theorem deliveredChunks_append (as bs : List Act) :
    deliveredChunks (as ++ bs) = deliveredChunks as ++ deliveredChunks bs := by
  simp [deliveredChunks]

theorem publishedErrs_append (as bs : List Act) :
    publishedErrs (as ++ bs) = publishedErrs as ++ publishedErrs bs := by
  simp [publishedErrs]

theorem deliveredChunks_chunks (ps : List (List Byte)) :
    deliveredChunks (ps.map Act.deliverChunk) = ps := by
  induction ps with
  | nil => rfl
  | cons p ps ih =>
    simpa [deliveredChunks, List.filterMap_cons] using ih

theorem publishedErrs_chunks (ps : List (List Byte)) :
    publishedErrs (ps.map Act.deliverChunk) = [] := by
  induction ps with
  | nil => rfl
  | cons p ps ih =>
    simp only [publishedErrs, List.map_cons, List.filterMap_cons] at ih ⊢
    exact ih

/-- The state of a clean (no error anywhere) stream whose receive
goroutine has finished. -/
def cleanS (q : List (List Byte)) (b : List Byte) : WSStream :=
  { audioQueue := q, errSlot := none, audioClosed := true
  , buf := b, err := none, closed := false }

/-- Draining a clean post-termination stream never blocks, yields the
queue's concatenation and records no error — under every select
schedule, since with an empty error slot only the audio-channel case is
ever ready. -/
theorem WSCollectAux_clean (q : List (List Byte)) :
    ∀ (σ : Nat → Bool) (b : List Byte),
      ∃ s', WSCollectAux σ (q.length + 1) (cleanS q b) = some (q.flatten, s') ∧
        s'.err = none := by
  induction q with
  | nil =>
    intro σ b
    exact ⟨_, rfl, rfl⟩
  | cons c cs ih =>
    intro σ b
    obtain ⟨s', hs', herr⟩ := ih σ c
    have h1 : WSCollectAux σ ((c :: cs).length + 1) (cleanS (c :: cs) b)
        = match WSCollectAux σ (cs.length + 1) (cleanS cs c) with
          | none => none
          | some t => some (c ++ t.1, t.2) := rfl
    rw [h1, hs']
    exact ⟨s', rfl, herr⟩

/-- Collecting a clean post-termination stream, under every schedule. -/
theorem WSCollect_cleanS (σ : Nat → Bool) (q : List (List Byte)) (b : List Byte) :
    WSCollect σ (cleanS q b) = some (some q.flatten, none) := by
  obtain ⟨s', hs', herr⟩ := WSCollectAux_clean q σ b
  show (match WSCollectAux σ (q.length + 1) (cleanS q b) with
        | none => none
        | some t => some (if t.2.err.isSome then none else some t.1, t.2.err))
      = some (some q.flatten, none)
  rw [hs']
  show some (if s'.err.isSome then none else some q.flatten, s'.err)
      = some (some q.flatten, none)
  rw [herr]
  rfl

/- ### Claim C1 -/

/-- C1: for the duplex stream, if the receive path decodes a finite
sequence of `Audio` frames with non-empty payloads followed by a
`Finish{reason:"stop"}` frame, then `Collect()` returns exactly the
concatenation of the audio payloads in receipt order and a nil error —
under every select schedule: no error is ever published in this
scenario, so the select never has two ready cases to race. -/
theorem spec_c1 (σ : Nat → Bool) (ps : List (List Byte)) (h : ∀ p ∈ ps, p ≠ []) :
    WSCollect σ (streamAfter (ps.map audioFrame ++ [finishFrame "stop"]))
      = some (some ps.flatten, none) := by
  have hr := recvLoopAux_audio_stop ps h
  have hPath : recvPath (ps.map audioFrame ++ [finishFrame "stop"])
      = ps.map Act.deliverChunk ++ [.closeDoneChan, .closeConn, .closeAudioChan] := by
    simp [recvPath, hr]
  have hd : deliveredChunks (recvPath (ps.map audioFrame ++ [finishFrame "stop"])) = ps := by
    rw [hPath, deliveredChunks_append, deliveredChunks_chunks]
    simp [deliveredChunks]
  have he : firstErr (recvPath (ps.map audioFrame ++ [finishFrame "stop"])) = none := by
    simp only [firstErr, hPath, publishedErrs_append, publishedErrs_chunks]
    rfl
  have hs : streamAfter (ps.map audioFrame ++ [finishFrame "stop"]) = cleanS ps [] := by
    simp [streamAfter, hd, he, hr, cleanS]
  rw [hs, WSCollect_cleanS]

/-- C1 witness: the spec scenario with two concrete chunks, at one
concrete schedule. -/
theorem spec_c1_witness :
    (∀ p ∈ ([[1, 2], [3]] : List (List Byte)), p ≠ []) ∧
    WSCollect (fun _ => true)
        (streamAfter (([[1, 2], [3]] : List (List Byte)).map audioFrame
          ++ [finishFrame "stop"]))
      = some (some [1, 2, 3], none) :=
  ⟨by decide, spec_c1 (fun _ => true) [[1, 2], [3]] (by decide)⟩

/- ### Claim C2 -/

/-- C2: the claimed behaviour is the intended one but the code can lose
the error.  After `Finish{reason:"error"}` the receive goroutine
publishes the error to the one-slot error channel and then (in its
defers) closes the audio channel and exits.  Once it has exited, both
cases of the consumer's `select` in `Next` are ready — a receive from a
closed channel is always ready — and Go chooses uniformly at random.
Under the choice that takes the error case (`σ = fun n => false`),
`Collect()` returns no bytes and the `WebSocketError` with message
`"stream finished with error"`, which is what the claim and the
repository's own test `TestTTSService_StreamWebSocket_ErrorEvent`
assert; under the choice that takes the closed-audio-channel case
(`σ = fun n => true`), `Next` sets the closed flag and returns false, and
`Collect()` returns empty bytes with a nil error — the published error is
silently lost. -/
theorem spec_c2 :
    WSCollect (fun _ => false) (streamAfter [finishFrame "error"])
        = some (none, some WSErr.finishedWithError) ∧
    WSCollect (fun _ => true) (streamAfter [finishFrame "error"])
        = some (some [], none) ∧
    WSErr.message WSErr.finishedWithError = "stream finished with error" :=
  ⟨rfl, rfl, rfl⟩

/- ### Claim C3 -/

/-- C3 counterexample: an inbound frame that decodes fine but carries the
unrecognized discriminator `"bogus"` is silently ignored, not treated as
a decode failure: no error is ever published and the loop continues,
still delivering the following audio chunk.  This falsifies the claim
that unrecognized discriminators surface as terminal stream errors. -/
theorem spec_c3_counterexample :
    firstErr (recvPath [ReadResult.okMsg (some ⟨"bogus", [], ""⟩),
        audioFrame [7], finishFrame "stop"]) = none ∧
    deliveredChunks (recvPath [ReadResult.okMsg (some ⟨"bogus", [], ""⟩),
        audioFrame [7], finishFrame "stop"]) = [[7]] :=
  ⟨rfl, rfl⟩

/-- C3 amended: a frame that fails msgpack decoding is a decode failure
surfaced as a terminal stream error; a successfully decoded frame with an
event discriminator other than `"audio"` and `"finish"` is silently
ignored (the dispatch `switch` has no default case) and the loop
continues; an `Audio` frame with an empty payload is a no-op delivering
no chunk. -/
theorem spec_c3_amended :
    (∀ rest : List ReadResult, recvLoopAux (ReadResult.okMsg none :: rest)
        = ([Act.publishErr WSErr.decodeFailed], true)) ∧
    (∀ (r : WSResponse) (rest : List ReadResult),
        r.event ≠ "audio" → r.event ≠ "finish" →
        recvLoopAux (ReadResult.okMsg (some r) :: rest) = recvLoopAux rest) ∧
    (∀ (reason : String) (rest : List ReadResult),
        recvLoopAux (ReadResult.okMsg
            (some { event := "audio", audio := [], reason := reason }) :: rest)
          = recvLoopAux rest) := by
  refine ⟨fun rest => rfl, ?_, fun reason rest => rfl⟩
  intro r rest h1 h2
  simp [recvLoopAux, h1, h2]

/-- C3 amended witness: the unknown-discriminator case at a concrete
frame. -/
theorem spec_c3_witness :
    (("bogus" : String) ≠ "audio") ∧ (("bogus" : String) ≠ "finish") ∧
    recvLoopAux [ReadResult.okMsg (some ⟨"bogus", [], ""⟩)] = recvLoopAux [] :=
  ⟨by decide, by decide,
    spec_c3_amended.2.1 ⟨"bogus", [], ""⟩ [] (by decide) (by decide)⟩

/- ### Send path and start setup -/

/-- One observation of the send goroutine's `select`: a text fragment
received from `textChan` (with oracles for whether `msgpack.Marshal` and
`conn.WriteMessage` succeed on it), the channel being closed by the
caller (source exhausted), or `doneChan` being closed by the receive
path. -/
inductive SendEvent
  | frag (t : String) (marshalOK : Bool) (writeOK : Bool)
  | sourceExhausted
  | doneSignal
deriving DecidableEq, Repr

/-- Body of the send goroutine's `for`/`select` loop: actions performed
and whether the goroutine returned.  A marshal or write failure publishes
(non-blocking) to the error channel and returns; channel closure or the
done signal return silently. -/
def sendLoopAux : List SendEvent → List Act × Bool
  | [] => ([], false)
  | .sourceExhausted :: _ => ([], true)
  | .doneSignal :: _ => ([], true)
  | .frag t mOK wOK :: rest =>
    if mOK = false then ([.publishErr .marshalTextFailed], true)
    else if wOK = false then ([.publishErr .sendTextFailed], true)
    else
      let r := sendLoopAux rest
      (.writeText t :: r.1, r.2)

/-- The send goroutine including its deferred stop: whenever the
goroutine returns, the defer marshals a `closeEvent{Event:"stop"}` and,
if that marshal succeeds, writes it (the write's own error is
discarded).  The goroutine contains no `conn.Close()` call. -/
def sendPath (evs : List SendEvent) (stopMarshalOK : Bool) : List Act :=
  let r := sendLoopAux evs
  r.1 ++ (if r.2 && stopMarshalOK then [.writeStop] else [])

/-- Outcome of the synchronous start-event step of `StreamWebSocket`
(after a successful dial): on a marshal or write failure of the `Start`
event the function closes the connection itself and returns the error;
no goroutine is started and no channels exist.  The flag records whether
this synchronous path closed the connection. -/
inductive SetupOutcome
  | syncFailure (connClosedBySetup : Bool) (e : WSErr)
  | streamStarted
deriving DecidableEq, Repr

/-- The start-event marshal/write step, with oracles for the two
fallible calls. -/
def startSetup (marshalOK writeOK : Bool) : SetupOutcome :=
  if marshalOK = false then .syncFailure true .marshalStartFailed
  else if writeOK = false then .syncFailure true .sendStartFailed
  else .streamStarted

/-- Whether an action is the connection close. -/
def isCloseConn : Act → Bool
  | .closeConn => true
  | _ => false

/- ### Helper lemmas for the send/receive action lists -/

theorem sendLoopAux_mem (evs : List SendEvent) :
    ∀ a ∈ (sendLoopAux evs).1,
      (∃ t, a = Act.writeText t) ∨ a = Act.publishErr .marshalTextFailed ∨
        a = Act.publishErr .sendTextFailed := by
  induction evs with
  | nil => intro a ha; cases ha
  | cons ev rest ih =>
    intro a ha
    cases ev with
    | sourceExhausted => cases ha
    | doneSignal => cases ha
    | frag t mOK wOK =>
      cases mOK with
      | false => simp [sendLoopAux] at ha; simp [ha]
      | true =>
        cases wOK with
        | false => simp [sendLoopAux] at ha; simp [ha]
        | true =>
          rw [show (sendLoopAux (SendEvent.frag t true true :: rest)).1
              = Act.writeText t :: (sendLoopAux rest).1 from rfl] at ha
          rcases List.mem_cons.mp ha with rfl | ha
          · exact Or.inl ⟨t, rfl⟩
          · exact ih a ha

theorem recvLoopAux_mem (rs : List ReadResult) :
    ∀ a ∈ (recvLoopAux rs).1,
      (∃ c, a = Act.deliverChunk c) ∨ (∃ e, a = Act.publishErr e) := by
  induction rs with
  | nil => intro a ha; cases ha
  | cons r rest ih =>
    intro a ha
    cases r with
    | closeNormal => cases ha
    | readFail m => simp [recvLoopAux] at ha; simp [ha]
    | okMsg om =>
      cases om with
      | none => simp [recvLoopAux] at ha; simp [ha]
      | some resp =>
        by_cases hA : resp.event = "audio"
        · by_cases hE : resp.audio = []
          · rw [show (recvLoopAux (ReadResult.okMsg (some resp) :: rest)).1
                = (recvLoopAux rest).1 by simp [recvLoopAux, hA, hE]] at ha
            exact ih a ha
          · rw [show (recvLoopAux (ReadResult.okMsg (some resp) :: rest)).1
                = Act.deliverChunk resp.audio :: (recvLoopAux rest).1 by
                  simp [recvLoopAux, hA, hE]] at ha
            rcases ha with _ | ha
            · exact Or.inl ⟨resp.audio, rfl⟩
            · exact ih a (by assumption)
        · by_cases hF : resp.event = "finish"
          · by_cases hR : resp.reason = "error"
            · simp [recvLoopAux, hA, hF, hR] at ha; simp [ha]
            · simp [recvLoopAux, hA, hF, hR] at ha
          · rw [show (recvLoopAux (ReadResult.okMsg (some resp) :: rest)).1
                = (recvLoopAux rest).1 by simp [recvLoopAux, hA, hF]] at ha
            exact ih a ha

theorem sendLoopAux_good (frags : List String) :
    sendLoopAux (frags.map (fun t => SendEvent.frag t true true)
        ++ [SendEvent.sourceExhausted])
      = (frags.map Act.writeText, true) := by
  induction frags with
  | nil => rfl
  | cons t ts ih =>
    have h1 : sendLoopAux ((t :: ts).map (fun x => SendEvent.frag x true true)
          ++ [SendEvent.sourceExhausted])
        = (Act.writeText t :: (sendLoopAux (ts.map (fun x => SendEvent.frag x true true)
            ++ [SendEvent.sourceExhausted])).1,
           (sendLoopAux (ts.map (fun x => SendEvent.frag x true true)
            ++ [SendEvent.sourceExhausted])).2) := rfl
    rw [h1, ih]
    rfl

/- ### Claim C8 -/

/-- C8: when every fragment marshals and writes successfully and the
caller then exhausts the text source, the send path writes one `Text`
event per fragment, in exactly the caller's order with nothing dropped or
merged, followed by exactly one `Stop` event and no further writes. -/
theorem spec_c8 (frags : List String) :
    sendPath (frags.map (fun t => SendEvent.frag t true true)
        ++ [SendEvent.sourceExhausted]) true
      = frags.map Act.writeText ++ [Act.writeStop] := by
  simp [sendPath, sendLoopAux_good frags]

/- ### Claim C10 -/

theorem publishedErrs_sendLoop_le (evs : List SendEvent) :
    (publishedErrs (sendLoopAux evs).1).length ≤ 1 := by
  induction evs with
  | nil => decide
  | cons ev rest ih =>
    cases ev with
    | sourceExhausted => simp [sendLoopAux, publishedErrs]
    | doneSignal => simp [sendLoopAux, publishedErrs]
    | frag t mOK wOK =>
      cases mOK with
      | false => simp [sendLoopAux, publishedErrs]
      | true =>
        cases wOK with
        | false => simp [sendLoopAux, publishedErrs]
        | true =>
          rw [show (sendLoopAux (SendEvent.frag t true true :: rest)).1
              = Act.writeText t :: (sendLoopAux rest).1 from rfl]
          simpa [publishedErrs, List.filterMap_cons] using ih

theorem publishedErrs_recvLoop_le (rs : List ReadResult) :
    (publishedErrs (recvLoopAux rs).1).length ≤ 1 := by
  induction rs with
  | nil => decide
  | cons r rest ih =>
    cases r with
    | closeNormal => simp [recvLoopAux, publishedErrs]
    | readFail m => simp [recvLoopAux, publishedErrs]
    | okMsg om =>
      cases om with
      | none => simp [recvLoopAux, publishedErrs]
      | some resp =>
        by_cases hA : resp.event = "audio"
        · by_cases hE : resp.audio = []
          · simpa [recvLoopAux, hA, hE] using ih
          · rw [show (recvLoopAux (ReadResult.okMsg (some resp) :: rest)).1
                = Act.deliverChunk resp.audio :: (recvLoopAux rest).1 by
                  simp [recvLoopAux, hA, hE]]
            simpa [publishedErrs, List.filterMap_cons] using ih
        · by_cases hF : resp.event = "finish"
          · by_cases hR : resp.reason = "error" <;>
              simp [recvLoopAux, hA, hF, hR, publishedErrs]
          · simpa [recvLoopAux, hA, hF] using ih

theorem publishedErrs_recvPath (rs : List ReadResult) :
    publishedErrs (recvPath rs) = publishedErrs (recvLoopAux rs).1 := by
  show publishedErrs ((recvLoopAux rs).1 ++ _) = _
  cases h2 : (recvLoopAux rs).2 <;>
    simp [publishedErrs_append, h2, publishedErrs]

theorem publishedErrs_sendPath (evs : List SendEvent) (stopOK : Bool) :
    publishedErrs (sendPath evs stopOK) = publishedErrs (sendLoopAux evs).1 := by
  show publishedErrs ((sendLoopAux evs).1 ++ _) = _
  cases h2 : (sendLoopAux evs).2 <;> cases stopOK <;>
    simp [publishedErrs_append, h2, publishedErrs]

theorem slotPublish_foldl_some (l : List WSErr) (x : WSErr) :
    List.foldl slotPublish (some x) l = some x := by
  induction l generalizing x with
  | nil => rfl
  | cons e rest ih => exact ih x

theorem slotAfter_head (es : List WSErr) : slotAfter es = es.head? := by
  cases es with
  | nil => rfl
  | cons e rest => exact slotPublish_foldl_some rest e

/-- C10: the error queue is a single slot filled by non-blocking
publishes: each of the two goroutines publishes at most one error per
stream, a publish into an occupied slot is silently discarded so the
slot always ends up holding the first published error, and the error the
caller observes (`firstErr`, read by `Next`/`Read`/`Collect`) is exactly
that first one. -/
theorem spec_c10 :
    (∀ rs : List ReadResult, (publishedErrs (recvPath rs)).length ≤ 1) ∧
    (∀ (evs : List SendEvent) (stopOK : Bool),
        (publishedErrs (sendPath evs stopOK)).length ≤ 1) ∧
    (∀ es : List WSErr, slotAfter es = es.head?) ∧
    (∀ as : List Act, firstErr as = slotAfter (publishedErrs as)) := by
  refine ⟨?_, ?_, slotAfter_head, ?_⟩
  · intro rs
    rw [publishedErrs_recvPath]
    exact publishedErrs_recvLoop_le rs
  · intro evs sOK
    rw [publishedErrs_sendPath]
    exact publishedErrs_sendLoop_le evs
  · intro as
    rw [slotAfter_head]
    rfl

/- ### Claim C4 -/

/-- C4 counterexample: an encode (marshal) failure of the outbound
`Start` configuration event is NOT reported through the error channel
and the connection IS closed by the failing path itself: the source runs
`conn.Close()` and returns the error synchronously before any goroutine
or channel exists.  This falsifies the claim that for every outbound
event an encode failure goes through the receive-side error path and
that closing the connection is exclusively the receive path's doing. -/
theorem spec_c4_counterexample :
    startSetup false true = SetupOutcome.syncFailure true WSErr.marshalStartFailed ∧
    SetupOutcome.syncFailure true WSErr.marshalStartFailed ≠ SetupOutcome.streamStarted :=
  ⟨rfl, by decide⟩

theorem sendLoopAux_marshalFail (pre : List String) (t : String) :
    sendLoopAux (pre.map (fun x => SendEvent.frag x true true)
        ++ [SendEvent.frag t false true])
      = (pre.map Act.writeText ++ [Act.publishErr .marshalTextFailed], true) := by
  induction pre with
  | nil => rfl
  | cons p ps ih =>
    have h1 : sendLoopAux ((p :: ps).map (fun x => SendEvent.frag x true true)
          ++ [SendEvent.frag t false true])
        = (Act.writeText p :: (sendLoopAux (ps.map (fun x => SendEvent.frag x true true)
            ++ [SendEvent.frag t false true])).1,
           (sendLoopAux (ps.map (fun x => SendEvent.frag x true true)
            ++ [SendEvent.frag t false true])).2) := rfl
    rw [h1, ih]
    rfl

theorem sendLoopAux_writeFail (pre : List String) (t : String) :
    sendLoopAux (pre.map (fun x => SendEvent.frag x true true)
        ++ [SendEvent.frag t true false])
      = (pre.map Act.writeText ++ [Act.publishErr .sendTextFailed], true) := by
  induction pre with
  | nil => rfl
  | cons p ps ih =>
    have h1 : sendLoopAux ((p :: ps).map (fun x => SendEvent.frag x true true)
          ++ [SendEvent.frag t true false])
        = (Act.writeText p :: (sendLoopAux (ps.map (fun x => SendEvent.frag x true true)
            ++ [SendEvent.frag t true false])).1,
           (sendLoopAux (ps.map (fun x => SendEvent.frag x true true)
            ++ [SendEvent.frag t true false])).2) := rfl
    rw [h1, ih]
    rfl

/-- C4 amended: an encode or write failure of a `Text` fragment event is
published to the single-slot error channel (the same channel the receive
path uses) and ends the send goroutine — which performs its deferred stop
write and contains no `conn.Close()` at all; the receive path closes the
connection exactly once whenever it terminates.  The `Start`
configuration event is the exception the original claim missed: its
marshal or write failure is synchronous — `StreamWebSocket` itself closes
the connection and returns the error directly, and no stream or channel
exists. -/
theorem spec_c4_amended :
    (∀ (evs : List SendEvent) (stopOK : Bool),
        (sendPath evs stopOK).countP isCloseConn = 0) ∧
    (∀ (pre : List String) (t : String),
        sendPath (pre.map (fun x => SendEvent.frag x true true)
            ++ [SendEvent.frag t false true]) true
          = pre.map Act.writeText ++ [Act.publishErr .marshalTextFailed, Act.writeStop]) ∧
    (∀ (pre : List String) (t : String),
        sendPath (pre.map (fun x => SendEvent.frag x true true)
            ++ [SendEvent.frag t true false]) true
          = pre.map Act.writeText ++ [Act.publishErr .sendTextFailed, Act.writeStop]) ∧
    (∀ rs : List ReadResult, (recvLoopAux rs).2 = true →
        (recvPath rs).countP isCloseConn = 1) ∧
    startSetup false true = SetupOutcome.syncFailure true WSErr.marshalStartFailed ∧
    startSetup true false = SetupOutcome.syncFailure true WSErr.sendStartFailed := by
  refine ⟨?_, ?_, ?_, ?_, rfl, rfl⟩
  · intro evs sOK
    rw [List.countP_eq_zero]
    intro a ha
    rcases List.mem_append.mp ha with h | h
    · rcases sendLoopAux_mem evs a h with ⟨t, rfl⟩ | rfl | rfl <;> simp [isCloseConn]
    · rcases (by split at h <;> simp_all :
          a = Act.writeStop ∨ False) with rfl | h2
      · simp [isCloseConn]
      · exact absurd h2 not_false
  · intro pre t
    simp [sendPath, sendLoopAux_marshalFail pre t]
  · intro pre t
    simp [sendPath, sendLoopAux_writeFail pre t]
  · intro rs h2
    have hz : ((recvLoopAux rs).1).countP isCloseConn = 0 := by
      rw [List.countP_eq_zero]
      intro a ha
      rcases recvLoopAux_mem rs a ha with ⟨c, rfl⟩ | ⟨e, rfl⟩ <;> simp [isCloseConn]
    show ((recvLoopAux rs).1
        ++ (if (recvLoopAux rs).2
            then [Act.closeDoneChan, Act.closeConn, Act.closeAudioChan]
            else [])).countP isCloseConn = 1
    rw [List.countP_append, hz, h2]
    decide

/-- C4 amended witness: the receive-path close-once part at a concrete
terminating run, together with the concrete text-event failure cases. -/
theorem spec_c4_witness :
    ((recvLoopAux [ReadResult.closeNormal]).2 = true) ∧
    (recvPath [ReadResult.closeNormal]).countP isCloseConn = 1 ∧
    sendPath [SendEvent.frag "hi" false true] true
      = [Act.publishErr .marshalTextFailed, Act.writeStop] :=
  ⟨rfl, spec_c4_amended.2.2.2.1 [ReadResult.closeNormal] rfl,
    spec_c4_amended.2.1 [] "hi"⟩

/- ### WebSocket stream Read and Close -/

/-- Result classification of one `Read` call on the WebSocket stream. -/
inductive WSReadErr
  | eofReached
  | streamErr (e : WSErr)
deriving DecidableEq, Repr

/-- `WebSocketAudioStream.Read` under select choice `pick`: if buffered
bytes remain, copy from them first (`n = copy(p, s.buf); s.buf = s.buf[n:]`)
without touching either channel; otherwise select on the two channels: a
pulled chunk is copied up to the buffer size `cap` with any remainder
kept in `buf` (`if n < len(chunk) { s.buf = chunk[n:] }`), a closed audio
channel yields `io.EOF`, and a queued error is recorded in `s.err` and
returned.  `none` means the call blocks in the select.  As in the
source, `Read` checks neither the `closed` flag nor a previously
recorded `err`. -/
def WSRead (pick : Bool) (s : WSStream) (cap : Nat) :
    Option ((List Byte × Option WSReadErr) × WSStream) :=
  if s.buf ≠ [] then
    some ((s.buf.take cap, none), { s with buf := s.buf.drop cap })
  else
    match WSPull pick s with
    | none => none
    | some (.chunk c, s') => some ((c.take cap, none), { s' with buf := c.drop cap })
    | some (.errSlotVal e, s') => some (([], some (.streamErr e)), { s' with err := some e })
    | some (.chanClosed, s') => some (([], some .eofReached), s')

/- ### Single-response stream (`AudioStream`) -/

/-- One `Read` call's result from the HTTP response body, as the
`io.Reader` contract allows: data with a nil error, data returned
together with `io.EOF`, a bare `(0, io.EOF)`, or a non-EOF failure. -/
inductive ReadStep
  | data (bs : List Byte)
  | dataEOF (bs : List Byte)
  | eofStep
  | failStep (e : String)
deriving DecidableEq, Repr

/-- Whether a step returns data together with `io.EOF`. -/
def isDataEOF : ReadStep → Bool
  | .dataEOF _ => true
  | _ => false

/-- State of an `AudioStream`: the remaining body read results, whether
the body has actually been closed and how many times `Body.Close()` ran,
plus the struct's `buf`, `err` and `closed` fields.  The fixed 4096-byte
chunk size only bounds how much one body read may return, which the
read-step model absorbs. -/
structure HTTPStream where
  body : List ReadStep
  bodyClosed : Bool
  bodyCloses : Nat
  buf : List Byte
  err : Option String
  closed : Bool
deriving DecidableEq, Repr

/-- A fresh stream over a body, as `newAudioStream` builds it. -/
def freshStream (body : List ReadStep) : HTTPStream :=
  { body := body, bodyClosed := false, bodyCloses := 0
  , buf := [], err := none, closed := false }

/-- `AudioStream.Next`: returns false at once when closed or errored;
otherwise performs one body read.  End of input (`io.EOF`) sets the
closed flag and returns false — note it discards any bytes an
`(n > 0, io.EOF)` read carried, because the source checks `err != nil`
before using `n`; a non-EOF failure records the error; data becomes the
current chunk.  An exhausted step list keeps answering `(0, io.EOF)`. -/
def HTTPNext (s : HTTPStream) : Bool × HTTPStream :=
  if s.closed || s.err.isSome then (false, s)
  else
    match s.body with
    | [] => (false, { s with closed := true })
    | .data bs :: rest => (true, { s with body := rest, buf := bs })
    | .dataEOF _ :: rest => (false, { s with body := rest, closed := true })
    | .eofStep :: rest => (false, { s with body := rest, closed := true })
    | .failStep e :: rest => (false, { s with body := rest, err := some e })

/-- `AudioStream.Close`: a no-op once the closed flag is set (also set by
`Next` at EOF); otherwise sets it and closes the response body. -/
def HTTPClose (s : HTTPStream) : HTTPStream :=
  if s.closed then s
  else { s with closed := true, bodyClosed := true, bodyCloses := s.bodyCloses + 1 }

/-- `io.Copy(&buf, s.resp.Body)`: reads until an error; data read in the
same call as `io.EOF` is kept, data in the same call as another error is
written before the error is returned (the caller discards it).  Returns
the copied bytes, the terminal error if any, and the unread steps. -/
def ioCopy : List ReadStep → List Byte × Option String × List ReadStep
  | [] => ([], none, [])
  | .data bs :: rest =>
    let t := ioCopy rest
    (bs ++ t.1, t.2.1, t.2.2)
  | .dataEOF bs :: rest => (bs, none, rest)
  | .eofStep :: rest => ([], none, rest)
  | .failStep e :: rest => ([], some e, rest)

/-- Error message Go's http package produces for a read on a closed
response body. -/
def closedBodyMsg : String := "http: read on closed response body"

/-- `AudioStream.Collect`: copies the whole body, then the deferred
`Close` runs; on a copy error the collected bytes are discarded and the
error returned.  The source consults neither `s.closed` nor `s.err`, so
reading a body that was actually closed fails as a read error. -/
def HTTPCollect (s : HTTPStream) : Except String (List Byte) × HTTPStream :=
  if s.bodyClosed then (.error closedBodyMsg, HTTPClose s)
  else
    let t := ioCopy s.body
    match t.2.1 with
    | some e => (.error e, HTTPClose { s with body := t.2.2 })
    | none => (.ok t.1, HTTPClose { s with body := t.2.2 })

/-- Result classification of one `AudioStream.Read` call. -/
inductive HTTPReadErr
  | eofReached
  | readErr (m : String)
deriving DecidableEq, Repr

/-- `AudioStream.Read`: returns `io.EOF` once the closed flag is set,
otherwise forwards one body read with the caller's buffer size, the
unread part of a data step staying in the body. -/
def HTTPRead (s : HTTPStream) (cap : Nat) : (List Byte × Option HTTPReadErr) × HTTPStream :=
  if s.closed then (([], some .eofReached), s)
  else
    match s.body with
    | [] => (([], some .eofReached), s)
    | .data bs :: rest =>
      if bs.length ≤ cap then ((bs, none), { s with body := rest })
      else ((bs.take cap, none), { s with body := .data (bs.drop cap) :: rest })
    | .dataEOF bs :: rest =>
      if bs.length ≤ cap then ((bs, some .eofReached), { s with body := rest })
      else ((bs.take cap, none), { s with body := .dataEOF (bs.drop cap) :: rest })
    | .eofStep :: rest => (([], some .eofReached), { s with body := rest })
    | .failStep e :: rest => (([], some (.readErr e)), { s with body := rest })

/-- The `for s.Next()` drain underlying `collect`-via-`advance`; the fuel
passed by `nextDrain` is enough to consume the whole body. -/
def nextDrainAux : Nat → HTTPStream → List Byte × HTTPStream
  | 0, s => ([], s)
  | n + 1, s =>
    match HTTPNext s with
    | (true, s') =>
      let t := nextDrainAux n s'
      (s'.buf ++ t.1, t.2)
    | (false, s') => ([], s')

/-- The chunks repeated `Next()`/`Bytes()` calls would produce,
concatenated in delivery order, with the error `Next` surfaces if any. -/
def nextDrain (s : HTTPStream) : List Byte × Option String :=
  let t := nextDrainAux (s.body.length + 1) s
  (t.1, t.2.err)

/-- Operations a caller can run on an `AudioStream`. -/
inductive HTTPOp
  | nextOp
  | closeOp
  | collectOp
  | readOp (cap : Nat)
deriving DecidableEq, Repr

/-- Run one operation, keeping only the stream state. -/
def applyHTTPOp (s : HTTPStream) : HTTPOp → HTTPStream
  | .nextOp => (HTTPNext s).2
  | .closeOp => HTTPClose s
  | .collectOp => (HTTPCollect s).2
  | .readOp cap => (HTTPRead s cap).2

/-- Run a sequence of operations. -/
def applyHTTPOps (s : HTTPStream) (ops : List HTTPOp) : HTTPStream :=
  ops.foldl applyHTTPOp s

/- ### Claim C5 -/

theorem HTTPNext_bodyCloses (s : HTTPStream) :
    (HTTPNext s).2.bodyCloses = s.bodyCloses := by
  unfold HTTPNext
  split
  · rfl
  · split <;> rfl

theorem HTTPNext_closed_mono (s : HTTPStream) (h : s.closed = true) :
    (HTTPNext s).2.closed = true := by
  simp [HTTPNext, h]

theorem HTTPRead_bodyCloses (s : HTTPStream) (cap : Nat) :
    (HTTPRead s cap).2.bodyCloses = s.bodyCloses := by
  unfold HTTPRead
  split
  · rfl
  · split <;> (try split) <;> rfl

theorem HTTPRead_closed (s : HTTPStream) (cap : Nat) :
    (HTTPRead s cap).2.closed = s.closed := by
  unfold HTTPRead
  split
  · rfl
  · split <;> (try split) <;> rfl

theorem HTTPClose_inv (s : HTTPStream) (h1 : s.bodyCloses ≤ 1)
    (h2 : s.bodyCloses = 1 → s.closed = true) :
    (HTTPClose s).bodyCloses ≤ 1 ∧
      ((HTTPClose s).bodyCloses = 1 → (HTTPClose s).closed = true) := by
  unfold HTTPClose
  split
  · exact ⟨h1, h2⟩
  · rename_i hc
    have h0 : s.bodyCloses = 0 := by
      rcases Nat.lt_or_ge s.bodyCloses 1 with h | h
      · omega
      · exact absurd (h2 (Nat.le_antisymm h1 h)) (by simpa using hc)
    simp [h0]

theorem HTTPCollect_state (s : HTTPStream) :
    ∃ s', (HTTPCollect s).2 = HTTPClose s' ∧
      s'.bodyCloses = s.bodyCloses ∧ s'.closed = s.closed := by
  unfold HTTPCollect
  split
  · exact ⟨s, rfl, rfl, rfl⟩
  · cases hio : (ioCopy s.body).2.1 with
    | none =>
      refine ⟨{ s with body := (ioCopy s.body).2.2 }, ?_, rfl, rfl⟩
      simp only [hio]
    | some e =>
      refine ⟨{ s with body := (ioCopy s.body).2.2 }, ?_, rfl, rfl⟩
      simp only [hio]

/-- The invariant behind "the body is closed at most once": the close
count never exceeds one, and once it is one the stream's closed flag is
set, so `Close` (the only close site) is a no-op from then on. -/
def goodClose (s : HTTPStream) : Prop :=
  s.bodyCloses ≤ 1 ∧ (s.bodyCloses = 1 → s.closed = true)

theorem applyHTTPOp_good (s : HTTPStream) (op : HTTPOp) (h : goodClose s) :
    goodClose (applyHTTPOp s op) := by
  cases op with
  | nextOp =>
    refine ⟨?_, ?_⟩
    · rw [show applyHTTPOp s HTTPOp.nextOp = (HTTPNext s).2 from rfl, HTTPNext_bodyCloses]
      exact h.1
    · intro h1
      rw [show applyHTTPOp s HTTPOp.nextOp = (HTTPNext s).2 from rfl, HTTPNext_bodyCloses] at h1
      exact HTTPNext_closed_mono s (h.2 h1)
  | closeOp => exact HTTPClose_inv s h.1 h.2
  | collectOp =>
    obtain ⟨s', hs', hbc, hcl⟩ := HTTPCollect_state s
    show goodClose (HTTPCollect s).2
    rw [hs']
    refine HTTPClose_inv s' ?_ ?_
    · rw [hbc]; exact h.1
    · intro hx
      rw [hcl]
      exact h.2 (by rw [← hbc]; exact hx)
  | readOp cap =>
    refine ⟨?_, ?_⟩
    · rw [show applyHTTPOp s (HTTPOp.readOp cap) = (HTTPRead s cap).2 from rfl,
        HTTPRead_bodyCloses]
      exact h.1
    · intro h1
      rw [show applyHTTPOp s (HTTPOp.readOp cap) = (HTTPRead s cap).2 from rfl,
        HTTPRead_bodyCloses] at h1
      rw [show applyHTTPOp s (HTTPOp.readOp cap) = (HTTPRead s cap).2 from rfl,
        HTTPRead_closed]
      exact h.2 h1

theorem applyHTTPOps_good (ops : List HTTPOp) :
    ∀ s : HTTPStream, goodClose s → goodClose (applyHTTPOps s ops) := by
  induction ops with
  | nil => intro s h; exact h
  | cons op rest ih => intro s h; exact ih _ (applyHTTPOp_good s op h)

theorem applyHTTPOp_sealed (s : HTTPStream) (op : HTTPOp)
    (h : s.closed = true ∧ s.bodyCloses = 1) :
    (applyHTTPOp s op).closed = true ∧ (applyHTTPOp s op).bodyCloses = 1 := by
  cases op with
  | nextOp =>
    exact ⟨HTTPNext_closed_mono s h.1, by rw [show applyHTTPOp s HTTPOp.nextOp
      = (HTTPNext s).2 from rfl, HTTPNext_bodyCloses]; exact h.2⟩
  | closeOp =>
    show (HTTPClose s).closed = true ∧ (HTTPClose s).bodyCloses = 1
    simpa [HTTPClose, h.1] using h
  | collectOp =>
    obtain ⟨s', hs', hbc, hcl⟩ := HTTPCollect_state s
    show (HTTPCollect s).2.closed = true ∧ (HTTPCollect s).2.bodyCloses = 1
    rw [hs']
    have hcl' : s'.closed = true := by rw [hcl]; exact h.1
    constructor <;> simp [HTTPClose, hcl', hbc, h.2]
  | readOp cap =>
    exact ⟨by rw [show applyHTTPOp s (HTTPOp.readOp cap) = (HTTPRead s cap).2 from rfl,
        HTTPRead_closed]; exact h.1,
      by rw [show applyHTTPOp s (HTTPOp.readOp cap) = (HTTPRead s cap).2 from rfl,
        HTTPRead_bodyCloses]; exact h.2⟩

theorem applyHTTPOps_sealed (ops : List HTTPOp) :
    ∀ s : HTTPStream, s.closed = true ∧ s.bodyCloses = 1 →
      (applyHTTPOps s ops).closed = true ∧ (applyHTTPOps s ops).bodyCloses = 1 := by
  induction ops with
  | nil => intro s h; exact h
  | cons op rest ih => intro s h; exact ih _ (applyHTTPOp_sealed s op h)

/-- C5 counterexample: over the body that immediately reports
end-of-input, running `Next` (which hits EOF and sets the closed flag
without closing the body) and then `Close` (which is now a no-op) never
closes the response body — not "exactly once" as claimed. -/
theorem spec_c5_counterexample :
    (applyHTTPOps (freshStream [ReadStep.eofStep])
      [HTTPOp.nextOp, HTTPOp.closeOp]).bodyCloses ≠ 1 := by
  decide

theorem applyHTTPOps_append (s : HTTPStream) (l1 l2 : List HTTPOp) :
    applyHTTPOps s (l1 ++ l2) = applyHTTPOps (applyHTTPOps s l1) l2 := by
  simp [applyHTTPOps]

theorem HTTPClose_not_closed (s : HTTPStream) (h : s.closed = false) :
    (HTTPClose s).closed = true ∧ (HTTPClose s).bodyCloses = s.bodyCloses + 1 := by
  simp [HTTPClose, h]

/-- While the closed flag is still down, the body has never been
closed. -/
theorem goodClose_open_zero (s : HTTPStream) (hg : goodClose s)
    (h : s.closed = false) : s.bodyCloses = 0 := by
  rcases Nat.lt_or_ge s.bodyCloses 1 with hlt | hge
  · omega
  · have h1 : s.bodyCloses = 1 := Nat.le_antisymm hg.1 hge
    simp [hg.2 h1] at h

theorem goodClose_fresh (body : List ReadStep) : goodClose (freshStream body) :=
  ⟨by simp [freshStream], by simp [freshStream]⟩

/-- C5 amended: `Close` is idempotent on both stream implementations
(every call after the first is a no-op), and across any operation
sequence the single-response stream closes the response body at most
once; it closes it exactly once in every sequence in which a `Close` or
a `Collect` runs at a point where `Next` has not yet observed
end-of-input (the closed flag is still down there).  After `Next`
reached EOF, `Close` returns nil without closing the body, which is what
bars "exactly once" in general. -/
theorem spec_c5_amended :
    (∀ s : HTTPStream, HTTPClose (HTTPClose s) = HTTPClose s) ∧
    (∀ s : WSStream, WSClose (WSClose s) = WSClose s) ∧
    (∀ (body : List ReadStep) (ops : List HTTPOp),
        (applyHTTPOps (freshStream body) ops).bodyCloses ≤ 1) ∧
    (∀ (body : List ReadStep) (ops1 ops2 : List HTTPOp),
        (applyHTTPOps (freshStream body) ops1).closed = false →
        (applyHTTPOps (freshStream body)
          (ops1 ++ HTTPOp.closeOp :: ops2)).bodyCloses = 1) ∧
    (∀ (body : List ReadStep) (ops1 ops2 : List HTTPOp),
        (applyHTTPOps (freshStream body) ops1).closed = false →
        (applyHTTPOps (freshStream body)
          (ops1 ++ HTTPOp.collectOp :: ops2)).bodyCloses = 1) := by
  refine ⟨?_, fun s => rfl, ?_, ?_, ?_⟩
  · intro s
    by_cases h : s.closed = true
    · simp [HTTPClose, h]
    · simp [HTTPClose, h]
  · intro body ops
    exact (applyHTTPOps_good ops (freshStream body) (goodClose_fresh body)).1
  · intro body ops1 ops2 hopen
    have hg := applyHTTPOps_good ops1 (freshStream body) (goodClose_fresh body)
    have h0 := goodClose_open_zero _ hg hopen
    rw [applyHTTPOps_append]
    have hc := HTTPClose_not_closed (applyHTTPOps (freshStream body) ops1) hopen
    have hseal : (applyHTTPOp (applyHTTPOps (freshStream body) ops1)
          HTTPOp.closeOp).closed = true ∧
        (applyHTTPOp (applyHTTPOps (freshStream body) ops1)
          HTTPOp.closeOp).bodyCloses = 1 := by
      refine ⟨hc.1, ?_⟩
      rw [show applyHTTPOp (applyHTTPOps (freshStream body) ops1) HTTPOp.closeOp
          = HTTPClose (applyHTTPOps (freshStream body) ops1) from rfl, hc.2, h0]
    exact (applyHTTPOps_sealed ops2 _ hseal).2
  · intro body ops1 ops2 hopen
    have hg := applyHTTPOps_good ops1 (freshStream body) (goodClose_fresh body)
    have h0 := goodClose_open_zero _ hg hopen
    rw [applyHTTPOps_append]
    obtain ⟨s', hs', hbc, hcl⟩ := HTTPCollect_state (applyHTTPOps (freshStream body) ops1)
    have hcl' : s'.closed = false := by rw [hcl]; exact hopen
    have hc := HTTPClose_not_closed s' hcl'
    have hseal : (applyHTTPOp (applyHTTPOps (freshStream body) ops1)
          HTTPOp.collectOp).closed = true ∧
        (applyHTTPOp (applyHTTPOps (freshStream body) ops1)
          HTTPOp.collectOp).bodyCloses = 1 := by
      rw [show applyHTTPOp (applyHTTPOps (freshStream body) ops1) HTTPOp.collectOp
          = (HTTPCollect (applyHTTPOps (freshStream body) ops1)).2 from rfl, hs']
      refine ⟨hc.1, ?_⟩
      rw [hc.2, hbc, h0]
    exact (applyHTTPOps_sealed ops2 _ hseal).2

/-- C5 amended witness: `Next` returning data leaves the closed flag
down, and a `Close` then closes the body exactly once; a `Collect`-first
run also closes it exactly once. -/
theorem spec_c5_witness :
    (applyHTTPOps (freshStream [ReadStep.data [1], ReadStep.eofStep])
        [HTTPOp.nextOp]).closed = false ∧
    (applyHTTPOps (freshStream [ReadStep.data [1], ReadStep.eofStep])
        ([HTTPOp.nextOp] ++ HTTPOp.closeOp :: [])).bodyCloses = 1 ∧
    (applyHTTPOps (freshStream [ReadStep.data [1], ReadStep.eofStep])
        ([] ++ HTTPOp.collectOp :: [])).bodyCloses = 1 :=
  ⟨by decide,
   spec_c5_amended.2.2.2.1 [ReadStep.data [1], ReadStep.eofStep]
     [HTTPOp.nextOp] [] (by decide),
   spec_c5_amended.2.2.2.2 [ReadStep.data [1], ReadStep.eofStep]
     [] [] (by decide)⟩

/- ### Claim C6 -/

theorem nextDrainAux_eq (body : List ReadStep) :
    ∀ (b : List Byte) (bc : Bool) (n : Nat),
      (∀ st ∈ body, isDataEOF st = false) →
      (((ioCopy body).2.1 = none →
        (nextDrainAux (body.length + 1)
          { body := body, bodyClosed := bc, bodyCloses := n
          , buf := b, err := none, closed := false }).1 = (ioCopy body).1) ∧
       (nextDrainAux (body.length + 1)
          { body := body, bodyClosed := bc, bodyCloses := n
          , buf := b, err := none, closed := false }).2.err = (ioCopy body).2.1) := by
  induction body with
  | nil => intro b bc n _; exact ⟨fun _ => rfl, rfl⟩
  | cons st rest ih =>
    intro b bc n h
    cases st with
    | data bs =>
      have ih' := ih bs bc n (fun x hx => h x (List.mem_cons_of_mem _ hx))
      have h1 : nextDrainAux ((ReadStep.data bs :: rest).length + 1)
            { body := ReadStep.data bs :: rest, bodyClosed := bc, bodyCloses := n
            , buf := b, err := none, closed := false }
          = (bs ++ (nextDrainAux (rest.length + 1)
              { body := rest, bodyClosed := bc, bodyCloses := n
              , buf := bs, err := none, closed := false }).1,
             (nextDrainAux (rest.length + 1)
              { body := rest, bodyClosed := bc, bodyCloses := n
              , buf := bs, err := none, closed := false }).2) := rfl
      constructor
      · intro hio
        have hio' : (ioCopy rest).2.1 = none := by
          simpa [ioCopy] using hio
        rw [h1]
        show bs ++ _ = (ioCopy (ReadStep.data bs :: rest)).1
        rw [ih'.1 hio']
        rfl
      · rw [h1]
        show (nextDrainAux (rest.length + 1) _).2.err = (ioCopy (ReadStep.data bs :: rest)).2.1
        rw [ih'.2]
        rfl
    | dataEOF bs =>
      have := h (ReadStep.dataEOF bs) (List.mem_cons_self _ _)
      simp [isDataEOF] at this
    | eofStep => exact ⟨fun _ => rfl, rfl⟩
    | failStep e => exact ⟨fun hio => absurd hio (by simp [ioCopy]), rfl⟩

/-- C6 counterexample: a legal `io.Reader` body whose single read returns
the byte `1` together with `io.EOF`.  `Collect` (`io.Copy`) keeps those
bytes, while draining via `Next` discards them (the source checks
`err != nil` before using the count) and surfaces no error either — so
`Collect` does not return the concatenation of the chunks `Next` would
have produced. -/
theorem spec_c6_counterexample :
    (HTTPCollect (freshStream [ReadStep.dataEOF [1]])).1 = .ok [1] ∧
    (nextDrain (freshStream [ReadStep.dataEOF [1]])).1 = [] ∧
    (nextDrain (freshStream [ReadStep.dataEOF [1]])).2 = none :=
  ⟨rfl, rfl, rfl⟩

/-- C6 amended: provided no body read returns data together with
`io.EOF` (end of input is a separate zero-byte read — the usual HTTP
body behaviour), `Collect` on a fresh stream returns exactly the
concatenation, in delivery order, of the chunks repeated `Next`/`Bytes`
calls would have produced, fails with the same error `Next` would have
surfaced if one occurred (returning no bytes then), and always leaves
the stream closed. -/
theorem spec_c6_amended (body : List ReadStep)
    (h : ∀ st ∈ body, isDataEOF st = false) :
    ((nextDrain (freshStream body)).2 = none →
        (HTTPCollect (freshStream body)).1 = .ok (nextDrain (freshStream body)).1) ∧
    (∀ e, (nextDrain (freshStream body)).2 = some e →
        (HTTPCollect (freshStream body)).1 = .error e) ∧
    (HTTPCollect (freshStream body)).2.closed = true := by
  have hd := nextDrainAux_eq body [] false 0 h
  have hdrain1 : (nextDrain (freshStream body)).1
      = (nextDrainAux (body.length + 1)
          { body := body, bodyClosed := false, bodyCloses := 0
          , buf := [], err := none, closed := false }).1 := rfl
  have hdrain2 : (nextDrain (freshStream body)).2
      = (nextDrainAux (body.length + 1)
          { body := body, bodyClosed := false, bodyCloses := 0
          , buf := [], err := none, closed := false }).2.err := rfl
  cases hio : (ioCopy body).2.1 with
  | none =>
    refine ⟨?_, ?_, ?_⟩
    · intro _
      have hcol : (HTTPCollect (freshStream body)).1 = .ok (ioCopy body).1 := by
        show (HTTPCollect
          { body := body, bodyClosed := false, bodyCloses := 0
          , buf := [], err := none, closed := false }).1 = _
        unfold HTTPCollect
        simp [hio]
      rw [hcol, hdrain1, hd.1 hio]
    · intro e he
      rw [hdrain2, hd.2, hio] at he
      cases he
    · show (HTTPCollect
        { body := body, bodyClosed := false, bodyCloses := 0
        , buf := [], err := none, closed := false }).2.closed = true
      unfold HTTPCollect
      simp [hio, HTTPClose]
  | some e0 =>
    refine ⟨?_, ?_, ?_⟩
    · intro hn
      rw [hdrain2, hd.2, hio] at hn
      cases hn
    · intro e he
      rw [hdrain2, hd.2, hio] at he
      have he' : e0 = e := by injection he
      have hcol : (HTTPCollect (freshStream body)).1 = .error e0 := by
        show (HTTPCollect
          { body := body, bodyClosed := false, bodyCloses := 0
          , buf := [], err := none, closed := false }).1 = _
        unfold HTTPCollect
        simp [hio]
      rw [hcol, he']
    · show (HTTPCollect
        { body := body, bodyClosed := false, bodyCloses := 0
        , buf := [], err := none, closed := false }).2.closed = true
      unfold HTTPCollect
      simp [hio, HTTPClose]

/-- C6 amended witness: the spec scenario restated over a concrete
two-read body. -/
theorem spec_c6_witness :
    (∀ st ∈ [ReadStep.data [9, 8], ReadStep.eofStep], isDataEOF st = false) ∧
    (HTTPCollect (freshStream [ReadStep.data [9, 8], ReadStep.eofStep])).1 = .ok [9, 8] ∧
    (HTTPCollect (freshStream [ReadStep.data [9, 8], ReadStep.eofStep])).2.closed = true :=
  ⟨by decide,
    (spec_c6_amended [ReadStep.data [9, 8], ReadStep.eofStep] (by decide)).1 rfl,
    (spec_c6_amended [ReadStep.data [9, 8], ReadStep.eofStep] (by decide)).2.2⟩

/- ### Claim C7 -/

/-- C7: `Read` is the byte adapter the spec describes.  For the duplex
stream: (a) with a non-empty buffered remainder, `Read` copies from it
first — up to the buffer size, keeping the rest — and touches neither
channel, whatever the select choice; (b) with an empty remainder and no
queued error (so the select has exactly one ready case and no race), it
pulls the next chunk from the same audio channel `Next` uses, returning
a short read and keeping the chunk's unconsumed remainder in `buf`;
(c) under every select choice, any successful read removes exactly a
prefix: the returned bytes followed by the remaining buffered and queued
bytes reproduce the original bytes, with no loss or duplication.  For
the single-response stream (d): a read of a data step returns at most
`cap` bytes and the unread remainder stays at the front of the body for
the next read. -/
theorem spec_c7 :
    (∀ (pick : Bool) (s : WSStream) (cap : Nat), s.buf ≠ [] →
        WSRead pick s cap
          = some ((s.buf.take cap, none), { s with buf := s.buf.drop cap })) ∧
    (∀ (pick : Bool) (s : WSStream) (cap : Nat) (c : List Byte)
        (rest : List (List Byte)),
        s.buf = [] → s.errSlot = none → s.audioQueue = c :: rest →
        WSRead pick s cap
          = some ((c.take cap, none),
              { s with audioQueue := rest, errSlot := none, buf := c.drop cap })) ∧
    (∀ (pick : Bool) (s : WSStream) (cap : Nat) (out : List Byte) (s' : WSStream),
        WSRead pick s cap = some ((out, none), s') →
        out ++ s'.buf ++ s'.audioQueue.flatten = s.buf ++ s.audioQueue.flatten) ∧
    (∀ (s : HTTPStream) (cap : Nat) (bs : List Byte) (rest : List ReadStep),
        s.closed = false → s.body = ReadStep.data bs :: rest →
        (HTTPRead s cap).1 = (bs.take cap, none) ∧
        (HTTPRead s cap).2.body
          = (if bs.length ≤ cap then rest else ReadStep.data (bs.drop cap) :: rest)) := by
  refine ⟨?_, ?_, ?_, ?_⟩
  · intro pick s cap h
    simp [WSRead, h]
  · intro pick s cap c rest hbuf herr hq
    obtain ⟨q, es, ac, b, e, cl⟩ := s
    simp only at hbuf herr hq
    subst hbuf
    subst herr
    subst hq
    rfl
  · intro pick s cap out s' h
    obtain ⟨q, es, ac, b, e, cl⟩ := s
    cases b with
    | cons x xs =>
      rw [show WSRead pick ⟨q, es, ac, x :: xs, e, cl⟩ cap
          = some (((x :: xs).take cap, none),
             ⟨q, es, ac, (x :: xs).drop cap, e, cl⟩) from rfl] at h
      injection h with h0
      injection h0 with h1 h2
      injection h1 with h1a h1b
      subst h1a
      subst h2
      show (x :: xs).take cap ++ (x :: xs).drop cap ++ q.flatten
          = (x :: xs) ++ q.flatten
      rw [List.take_append_drop]
    | nil =>
      cases q with
      | cons c rest =>
        cases es with
        | none =>
          rw [show WSRead pick ⟨c :: rest, none, ac, [], e, cl⟩ cap
              = some ((c.take cap, none),
                 ⟨rest, none, ac, c.drop cap, e, cl⟩) from rfl] at h
          injection h with h0
          injection h0 with h1 h2
          injection h1 with h1a h1b
          subst h1a
          subst h2
          show c.take cap ++ c.drop cap ++ rest.flatten = [] ++ (c :: rest).flatten
          rw [List.take_append_drop]
          rfl
        | some e0 =>
          cases pick with
          | true =>
            rw [show WSRead true ⟨c :: rest, some e0, ac, [], e, cl⟩ cap
                = some ((c.take cap, none),
                   ⟨rest, some e0, ac, c.drop cap, e, cl⟩) from rfl] at h
            injection h with h0
            injection h0 with h1 h2
            injection h1 with h1a h1b
            subst h1a
            subst h2
            show c.take cap ++ c.drop cap ++ rest.flatten
                = [] ++ (c :: rest).flatten
            rw [List.take_append_drop]
            rfl
          | false =>
            rw [show WSRead false ⟨c :: rest, some e0, ac, [], e, cl⟩ cap
                = some (([], some (.streamErr e0)),
                   ⟨c :: rest, none, ac, [], some e0, cl⟩) from rfl] at h
            injection h with h0
            injection h0 with h1 h2
            injection h1 with h1a h1b
            cases h1b
      | nil =>
        cases es with
        | some e0 =>
          cases ac <;> cases pick <;> simp [WSRead, WSPull] at h
        | none =>
          cases ac <;> simp [WSRead, WSPull] at h
  · intro s cap bs rest hcl hb
    obtain ⟨body, bc, n, b, e, cl⟩ := s
    simp only at hcl hb
    subst hcl
    subst hb
    by_cases hlen : bs.length ≤ cap
    · constructor
      · simp [HTTPRead, hlen, List.take_of_length_le hlen]
      · simp [HTTPRead, hlen]
    · constructor
      · simp [HTTPRead, hlen]
      · simp [HTTPRead, hlen]

/-- C7 witness: concrete short reads on both stream implementations. -/
theorem spec_c7_witness :
    WSRead true
        { audioQueue := [[3, 4]], errSlot := none, audioClosed := true
        , buf := [1, 2], err := none, closed := false } 1
      = some (([1], none),
         { audioQueue := [[3, 4]], errSlot := none, audioClosed := true
         , buf := [2], err := none, closed := false }) ∧
    WSRead true
        { audioQueue := [[5, 6]], errSlot := none, audioClosed := true
        , buf := [], err := none, closed := false } 1
      = some (([5], none),
         { audioQueue := [], errSlot := none, audioClosed := true
         , buf := [6], err := none, closed := false }) ∧
    ([5] : List Byte) ++ [6] ++ ([] : List (List Byte)).flatten
      = ([] : List Byte) ++ ([[5, 6]] : List (List Byte)).flatten ∧
    (HTTPRead (freshStream [ReadStep.data [7, 8, 9]]) 2).1 = ([7, 8], none) ∧
    (HTTPRead (freshStream [ReadStep.data [7, 8, 9]]) 2).2.body
      = [ReadStep.data [9]] :=
  ⟨spec_c7.1 true _ 1 (by decide),
   spec_c7.2.1 true _ 1 [5, 6] [] rfl rfl rfl,
   spec_c7.2.2.1 true
     { audioQueue := [[5, 6]], errSlot := none, audioClosed := true
     , buf := [], err := none, closed := false } 1 [5]
     { audioQueue := [], errSlot := none, audioClosed := true
     , buf := [6], err := none, closed := false } rfl,
   (spec_c7.2.2.2 (freshStream [ReadStep.data [7, 8, 9]]) 2 [7, 8, 9] [] rfl rfl).1,
   by
     have := (spec_c7.2.2.2 (freshStream [ReadStep.data [7, 8, 9]]) 2 [7, 8, 9] [] rfl rfl).2
     simpa using this⟩

/- ### Claim C9 -/

/-- `ReferenceAudio`: reference sample bytes plus transcription. -/
structure RefAudio where
  audio : List Byte
  text : String
deriving DecidableEq

/-- `Prosody`: speed and volume.  The Go `float64` fields are modelled as
rationals; the engine only copies them. -/
structure ProsodyM where
  speed : Rat
  volume : Rat
deriving DecidableEq

/-- `TTSConfig`, with each Go field modelled at its copy-level role. -/
structure TTSConfigM where
  model : String
  format : String
  sampleRate : Int
  mp3Bitrate : Int
  opusBitrate : Int
  normalize : Option Bool
  chunkLength : Int
  latency : String
  referenceID : String
  references : List RefAudio
  prosody : Option ProsodyM
  topP : Rat
  temperature : Rat
deriving DecidableEq

/-- `ConvertParams`. -/
structure ConvertParams where
  text : String
  model : String
  referenceID : String
  references : List RefAudio
  format : String
  latency : String
  speed : Rat
  config : Option TTSConfigM
deriving DecidableEq

/-- `StreamParams`. -/
structure StreamParams where
  text : String
  model : String
  referenceID : String
  references : List RefAudio
  format : String
  latency : String
  speed : Rat
  config : Option TTSConfigM
deriving DecidableEq

/-- The `&StreamParams{...}` literal `Convert` builds from its
`ConvertParams`: every field is copied across. -/
def toStreamParams (p : ConvertParams) : StreamParams :=
  { text := p.text, model := p.model, referenceID := p.referenceID
  , references := p.references, format := p.format, latency := p.latency
  , speed := p.speed, config := p.config }

/-- `TTSService.Stream`: performs the HTTP exchange (abstracted as a
function from the stream parameters to either a typed failure or the
response body's read behaviour) and wraps a successful response in a
fresh `AudioStream`. -/
def ttsStream (exchange : StreamParams → Except String (List ReadStep))
    (p : StreamParams) : Except String HTTPStream :=
  match exchange p with
  | .error e => .error e
  | .ok body => .ok (freshStream body)

/-- `TTSService.Convert`: builds the stream parameters, calls `Stream`,
propagates its error, else returns `stream.Collect()`. -/
def ttsConvert (exchange : StreamParams → Except String (List ReadStep))
    (p : ConvertParams) : Except String (List Byte) :=
  match ttsStream exchange (toStreamParams p) with
  | .error e => .error e
  | .ok s => (HTTPCollect s).1

/-- C9: for every parameter set and every behaviour of the underlying
HTTP exchange, `Convert` returns exactly `Stream` followed by `Collect`
on the returned stream — the same bytes on success and the same error
(with no bytes) when either step fails. -/
theorem spec_c9 (exchange : StreamParams → Except String (List ReadStep))
    (p : ConvertParams) :
    ttsConvert exchange p
      = (ttsStream exchange (toStreamParams p)).bind (fun s => (HTTPCollect s).1) := by
  unfold ttsConvert
  cases h : ttsStream exchange (toStreamParams p) <;> rfl
